import Mathlib

/-!
Verification of the Azure LLM client adapter
(`trae_agent/utils/azure_client.py`).

The development shallowly embeds the client: Python objects become Lean
structures, the mutable `message_history` becomes explicit state passing,
exceptions become `Except String`, and the network call becomes an oracle
function supplied to `chat`.  JSON values are modelled by a small
inductive type; `json.dumps` is modelled by a computable serializer.
-/

namespace AzureSpec

/-- A JSON value, as produced by Python `json.loads` / consumed by
`json.dumps`.  Numbers are modelled as integers (the client only ever
round-trips values, so the exact numeric grammar is irrelevant). -/
inductive Json where
  | null : Json
  | bool : Bool → Json
  | num : Int → Json
  | str : String → Json
  | arr : List Json → Json
  | obj : List (String × Json) → Json
deriving Repr

/-- Escape one character the way Python `json.dumps` does for the
characters that matter here (quote, backslash, common control chars). -/
def jsonEscapeChar (c : Char) : String :=
  if c = '"' then "\\\""
  else if c = '\\' then "\\\\"
  else if c = '\n' then "\\n"
  else if c = '\t' then "\\t"
  else if c = '\r' then "\\r"
  else String.singleton c

/-- Serialize a string literal with escaping, as `json.dumps` does. -/
def jsonEscape (s : String) : String :=
  "\"" ++ String.join (s.toList.map jsonEscapeChar) ++ "\""

mutual
/-- Model of Python `json.dumps` (default separators `", "` and `": "`). -/
def jsonDumps : Json → String
  | .null => "null"
  | .bool true => "true"
  | .bool false => "false"
  | .num i => toString i
  | .str s => jsonEscape s
  | .arr xs => "[" ++ jsonDumpsList xs ++ "]"
  | .obj kvs => "\x7b" ++ jsonDumpsObj kvs ++ "\x7d"

def jsonDumpsList : List Json → String
  | [] => ""
  | [x] => jsonDumps x
  | x :: xs => jsonDumps x ++ ", " ++ jsonDumpsList xs

def jsonDumpsObj : List (String × Json) → String
  | [] => ""
  | [(k, v)] => jsonEscape k ++ ": " ++ jsonDumps v
  | (k, v) :: kvs => jsonEscape k ++ ": " ++ jsonDumps v ++ ", " ++ jsonDumpsObj kvs
end

/-- Model of `tools/base.py` `ToolCall`: a structured function-invocation request.
`arguments` is a string-keyed mapping (Python `dict[str, Any]`). -/
structure ToolCall where
  name : String
  call_id : String
  arguments : Json
deriving Repr

/-- Model of `llm_basics.py` `ToolResult`: the outcome of executing a tool call,
as consumed by `AzureClient.parse_messages` (fields `call_id`, `result`,
`error`). -/
structure ToolResult where
  call_id : String
  result : Option String
  error : Option String
deriving Repr, DecidableEq

/-- Model of `llm_basics.py` `LLMMessage`: provider-agnostic chat message with
`role`, optional `content`, optional `tool_call`, optional `tool_result`. -/
structure LLMMessage where
  role : String
  content : Option String
  tool_call : Option ToolCall := none
  tool_result : Option ToolResult := none
deriving Repr

/-- Python truthiness of an optional string: `not msg.content` is true
exactly when the field is `None` or the empty string. -/
def strFalsy : Option String → Bool
  | none => true
  | some s => s.isEmpty

/-- Provider-native tool-call entry inside an assistant record
(`ChatCompletionMessageToolCallParam`): `id`, function `name`, and the
function `arguments` as a JSON-encoded string. -/
structure AzureToolCallParam where
  id : String
  function_name : String
  function_arguments : String
deriving Repr, DecidableEq

/-- Provider-native message record (`ChatCompletionMessageParam`), one
constructor per record shape the client builds. -/
inductive AzureMessage where
  | function (content : String) (name : String)
  | tool (content : String) (tool_call_id : String)
  | system (content : String)
  | user (content : String)
  | assistant (content : String)
  | assistantToolCalls (content : String) (tool_calls : List AzureToolCallParam)
deriving Repr, DecidableEq

/-- Model of Python `str.strip()`: drop whitespace characters from both
ends of the string (defined over the character list so that it is
evaluable by the kernel). -/
def pyStrip (s : String) : String :=
  ⟨((s.data.dropWhile Char.isWhitespace).reverse.dropWhile Char.isWhitespace).reverse⟩

/-- The content of the function-role record built for a tool-call
message: `json.dumps({"name": ..., "arguments": ...})`. -/
def toolCallContent (tc : ToolCall) : String :=
  jsonDumps (.obj [("name", .str tc.name), ("arguments", tc.arguments)])

/-- The content of the tool-role record built for a tool-result message:
the result text plus a trailing newline when the result is truthy, then
`"Tool call failed with error:\n"` plus the error text when the error is
truthy, the whole string stripped of surrounding whitespace. -/
def toolResultContent (tr : ToolResult) : String :=
  pyStrip
    ((match tr.result with
       | some r => if r.isEmpty then "" else r ++ "\n"
       | none => "") ++
     (match tr.error with
       | some e => if e.isEmpty then "" else "Tool call failed with error:\n" ++ e
       | none => ""))

/-- The role/content chain of `parse_messages` (the branches reached
when a message carries neither a `tool_call` nor a `tool_result`). -/
def parsePlain (role : String) (content : Option String) : Except String AzureMessage :=
  if role = "system" then
    if strFalsy content then .error "System message content is required"
    else .ok (.system (content.getD ""))
  else if role = "user" then
    if strFalsy content then .error "User message content is required"
    else .ok (.user (content.getD ""))
  else if role = "assistant" then
    if strFalsy content then .error "Assistant message content is required"
    else .ok (.assistant (content.getD ""))
  else .error ("Invalid message role: " ++ role)

/-- Translate a single `LLMMessage` exactly as the body of the loop in
`AzureClient.parse_messages` does: `tool_call` first, then
`tool_result`, then the role/content chain. -/
def parseMessage (msg : LLMMessage) : Except String AzureMessage :=
  match msg.tool_call with
  | some tc => .ok (.function (toolCallContent tc) tc.name)
  | none =>
    match msg.tool_result with
    | some tr => .ok (.tool (toolResultContent tr) tr.call_id)
    | none => parsePlain msg.role msg.content

/-- Model of `AzureClient.parse_messages`: translate the messages in order,
failing on the first invalid one (a Python `raise` aborts the loop). -/
def parse_messages : List LLMMessage → Except String (List AzureMessage)
  | [] => .ok []
  | msg :: rest =>
    match parseMessage msg with
    | .error e => .error e
    | .ok a =>
      match parse_messages rest with
      | .error e => .error e
      | .ok as => .ok (a :: as)

/-- A message is rejected by the role/content validation: it carries
neither tool payload and either has one of the three plain roles with
falsy content, or has any other role. -/
def messageInvalid (msg : LLMMessage) : Bool :=
  msg.tool_call.isNone && msg.tool_result.isNone &&
    (if msg.role = "system" then strFalsy msg.content
     else if msg.role = "user" then strFalsy msg.content
     else if msg.role = "assistant" then strFalsy msg.content
     else true)

/-- The tool-result record content as the spec's sentence literally
reads: the result text with `"Tool call failed with error:\n"` plus the
error text appended when an error is present, the whole string trimmed —
with no newline between the result text and the error notice.  Stated
for comparison with `toolResultContent`, which follows the code. -/
def toolResultContentSpec (tr : ToolResult) : String :=
  pyStrip
    ((tr.result.getD "") ++
     (match tr.error with
       | some e => "Tool call failed with error:\n" ++ e
       | none => ""))

/-- Model of `config.py` `ModelParameters`, restricted to the fields the Azure
client reads (`model`, connection fields, `max_retries`); the sampling
fields (`temperature`, `top_p`, `max_tokens`, …) are passed through to
the SDK verbatim and play no role in any property here. -/
structure ModelParameters where
  model : String
  api_key : String
  base_url : Option String
  api_version : Option String
  max_retries : Nat
deriving Repr, DecidableEq

/-- The mutable state of an `AzureClient` instance: the connection
fields copied from the config by the base-class constructor, and the
`message_history` list. -/
structure AzureClientState where
  api_key : String
  base_url : String
  api_version : Option String
  message_history : List AzureMessage
deriving Repr, DecidableEq

/-- Model of `AzureClient.__init__`: the base constructor copies the connection
fields from the config; then `if not self.base_url` raises a
`ValueError`; otherwise the SDK client is created (no network use) and
`message_history` is initialized to the empty list. -/
def AzureClient.construct (mp : ModelParameters) : Except String AzureClientState :=
  if strFalsy mp.base_url then .error "base_url is required for AzureClient"
  else .ok { api_key := mp.api_key, base_url := mp.base_url.getD "",
             api_version := mp.api_version, message_history := [] }

/-- Model of `AzureClient.set_chat_history`: replace the stored history with the
translation of `messages`; a translation error propagates and leaves the
state untouched. -/
def set_chat_history (st : AzureClientState) (messages : List LLMMessage) :
    Except String Unit × AzureClientState :=
  match parse_messages messages with
  | .error e => (.error e, st)
  | .ok azure_messages => (.ok (), { st with message_history := azure_messages })

/-- Model of `AzureClient.supports_tool_calling`: the body is `return True`. -/
def supports_tool_calling (_mp : ModelParameters) : Bool :=
  true

/-- Modelled from the spec: `retry_utils.retry_with` is not under
`src/`; per the spec it re-invokes the fallible call on failure up to
the maximum retry count and then re-raises the last failure.  `f i` is
the outcome of the `i`-th invocation; `fuel` is the number of
re-invocations still allowed after the one at index `i`. -/
def retryFrom {E A : Type} (f : Nat → Except E A) (i : Nat) : Nat → Except E A
  | 0 => f i
  | fuel + 1 =>
    match f i with
    | .ok a => .ok a
    | .error _ => retryFrom f (i + 1) fuel

/-- Modelled from the spec: the retry wrapper invokes the call once and
re-invokes it on failure up to `max_retries` more times, surfacing the
last failure when all invocations fail. -/
def retry_with {E A : Type} (f : Nat → Except E A) (max_retries : Nat) : Except E A :=
  retryFrom f 0 max_retries

/-- A tool-call entry of a provider response
(`choice.message.tool_calls[k]`): `id` and the called function's name.
On the wire `function.arguments` is a JSON string; it is modelled here
post-parse, with `none` standing for the empty (falsy) string. -/
structure RespToolCall where
  id : String
  function_name : String
  function_arguments : Option Json
deriving Repr

/-- The `message` of a provider response choice. -/
structure RespMessage where
  content : Option String
  tool_calls : Option (List RespToolCall)
deriving Repr

/-- One element of `response.choices`. -/
structure Choice where
  message : RespMessage
  finish_reason : String
deriving Repr

/-- The `usage` block of a provider response; the client guards each
count with `or 0`, so the counts are modelled as optional. -/
structure Usage where
  prompt_tokens : Option Nat
  completion_tokens : Option Nat
deriving Repr, DecidableEq

/-- A provider `ChatCompletion` response, restricted to the fields the
client reads. -/
structure ChatCompletion where
  choices : List Choice
  model : String
  usage : Option Usage
deriving Repr

/-- Model of `llm_basics.py` `LLMUsage` as populated by the Azure client. -/
structure LLMUsage where
  input_tokens : Nat
  output_tokens : Nat
deriving Repr, DecidableEq

/-- Model of `llm_basics.py` `LLMResponse` as populated by the Azure client. -/
structure LLMResponse where
  content : String
  tool_calls : Option (List ToolCall)
  finish_reason : String
  model : String
  usage : Option LLMUsage
deriving Repr

/-- Model of `tools/base.py` `Tool`, restricted to the accessors the Azure
client calls (`get_name`, `get_description`, `get_input_schema`). -/
structure Tool where
  name : String
  description : String
  input_schema : Json
deriving Repr

/-- A provider-native tool schema (`ChatCompletionToolParam` wrapping a
`FunctionDefinition`). -/
structure ToolSchema where
  function_name : String
  function_description : String
  function_parameters : Json
deriving Repr

/-- The network oracle: what `self.client.chat.completions.create`
returns (or the transport error it raises), as a function of the
history and tool schemas in the request and of the attempt index (the
retry wrapper may observe different outcomes on different attempts). -/
def Network : Type :=
  List AzureMessage → Option (List ToolSchema) → Nat → Except String ChatCompletion

/-- The schema block of the request: `None` unless `tools` is truthy,
in which case one `ChatCompletionToolParam` per tool. -/
def toolSchemasOf (tools : Option (List Tool)) : Option (List ToolSchema) :=
  match tools with
  | some (t :: ts) => some ((t :: ts).map fun tool =>
      { function_name := tool.name, function_description := tool.description,
        function_parameters := tool.input_schema })
  | _ => none

/-- The `tool_calls` list `chat` extracts from the first choice: stays
`None` unless the provider signaled a truthy (non-empty) list; each
entry keeps the provider's `id` as `call_id` and parses the arguments
string, with the empty string read as `{}`. -/
def extractToolCalls (choice : Choice) : Option (List ToolCall) :=
  match choice.message.tool_calls with
  | some (tc :: tcs) => some ((tc :: tcs).map fun t =>
      { name := t.function_name, call_id := t.id,
        arguments := t.function_arguments.getD (.obj []) })
  | _ => none

/-- The `LLMResponse` `chat` builds from the response and its first
choice: content defaulted to `""`, usage mapped with counts defaulted
to `0`, finish reason and model echoed. -/
def buildLLMResponse (response : ChatCompletion) (choice : Choice) : LLMResponse :=
  { content := choice.message.content.getD ""
    tool_calls := extractToolCalls choice
    finish_reason := choice.finish_reason
    model := response.model
    usage := response.usage.map fun u =>
      { input_tokens := u.prompt_tokens.getD 0
        output_tokens := u.completion_tokens.getD 0 } }

/-- The provider-native form of the extracted tool calls, as written
back into the assistant history record (`id`, `name`, `arguments`
re-encoded with `json.dumps`). -/
def assistantToolCallParams (tcs : List ToolCall) : List AzureToolCallParam :=
  tcs.map fun t =>
    { id := t.call_id, function_name := t.name,
      function_arguments := jsonDumps t.arguments }

/-- The history update at the end of `chat`: append an assistant record
in tool-call form when the response carried a truthy tool-call list,
else a plain assistant record when the content is truthy, else nothing. -/
def appendAssistantTurn (st1 : AzureClientState) (r : LLMResponse) : AzureClientState :=
  match r.tool_calls with
  | some (tc :: tcs) =>
      { st1 with message_history := st1.message_history ++
          [.assistantToolCalls r.content (assistantToolCallParams (tc :: tcs))] }
  | _ =>
      if r.content.isEmpty then st1
      else { st1 with message_history :=
               st1.message_history ++ [.assistant r.content] }

/-- The history assignment at the top of `chat`: extend on
`reuse_history`, replace otherwise. -/
def historyAfterParse (st : AzureClientState) (parsed : List AzureMessage)
    (reuse_history : Bool) : AzureClientState :=
  { st with message_history :=
      if reuse_history then st.message_history ++ parsed else parsed }

/-- The body of `chat` after the history assignment: the retry-wrapped
network call on the stored history and schemas, then response
extraction (`choices[0]` raising `IndexError` on an empty list) and the
assistant-turn append. -/
def chatWithHistory (st1 : AzureClientState) (mp : ModelParameters)
    (tools : Option (List Tool)) (net : Network) :
    Except String LLMResponse × AzureClientState :=
  match retry_with (net st1.message_history (toolSchemasOf tools)) mp.max_retries with
  | .error e => (.error e, st1)
  | .ok response =>
    match response.choices with
    | [] => (.error "IndexError: list index out of range", st1)
    | choice :: _ =>
      (.ok (buildLLMResponse response choice),
       appendAssistantTurn st1 (buildLLMResponse response choice))

/-- Model of `AzureClient.chat`, with the mutable `self.message_history` passed
explicitly: returns the Python return value (or the raised exception)
together with the state of the history when control leaves the method.
The trajectory-recorder call is fire-and-forget and not modelled. -/
def chat (st : AzureClientState) (messages : List LLMMessage) (mp : ModelParameters)
    (tools : Option (List Tool)) (net : Network) (reuse_history : Bool) :
    Except String LLMResponse × AzureClientState :=
  match parse_messages messages with
  | .error e => (.error e, st)
  | .ok azure_messages =>
    chatWithHistory (historyAfterParse st azure_messages reuse_history) mp tools net

/-! ## Concrete fixtures (used by witnesses and counterexamples) -/

/-- A client state with an empty history. -/
def stW : AzureClientState := ⟨"k", "u", none, []⟩

/-- A plain user message. -/
def userHi : LLMMessage := { role := "user", content := some "hi" }

/-- A configuration with `max_retries = 0`. -/
def mpW : ModelParameters := ⟨"m", "k", some "u", none, 0⟩

/-- A response whose first choice has plain content and partial usage. -/
def respPlain : ChatCompletion :=
  { choices := [{ message := { content := some "hello", tool_calls := none },
                  finish_reason := "stop" }],
    model := "gpt", usage := some { prompt_tokens := some 3, completion_tokens := none } }

/-- A response whose first choice has neither content nor tool calls. -/
def respEmpty : ChatCompletion :=
  { choices := [{ message := { content := none, tool_calls := none },
                  finish_reason := "stop" }],
    model := "gpt", usage := none }

/-- A response whose first choice carries one tool call. -/
def respTC : ChatCompletion :=
  { choices := [{ message := { content := none,
                               tool_calls := some [{ id := "call123",
                                                     function_name := "f",
                                                     function_arguments := none }] },
                  finish_reason := "tool_calls" }],
    model := "gpt", usage := none }

/-- The tool calls `chat` extracts from `respTC`. -/
def tcsW : List ToolCall := [{ name := "f", call_id := "call123", arguments := .obj [] }]

/-! ## Helper lemmas -/

theorem parseMessage_of_tool_call (msg : LLMMessage) (tc : ToolCall)
    (h : msg.tool_call = some tc) :
    parseMessage msg = .ok (.function (toolCallContent tc) tc.name) := by
  simp [parseMessage, h]

theorem parseMessage_of_tool_result (msg : LLMMessage) (tr : ToolResult)
    (h1 : msg.tool_call = none) (h2 : msg.tool_result = some tr) :
    parseMessage msg = .ok (.tool (toolResultContent tr) tr.call_id) := by
  simp [parseMessage, h1, h2]

theorem parseMessage_of_plain (msg : LLMMessage)
    (h1 : msg.tool_call = none) (h2 : msg.tool_result = none) :
    parseMessage msg = parsePlain msg.role msg.content := by
  simp [parseMessage, h1, h2]

theorem parsePlain_error_iff (role : String) (content : Option String) :
    (∃ e, parsePlain role content = .error e) ↔
      (if role = "system" then strFalsy content
       else if role = "user" then strFalsy content
       else if role = "assistant" then strFalsy content
       else true) = true := by
  unfold parsePlain
  split_ifs <;> cases hc : strFalsy content <;> simp_all

theorem parseMessage_error_iff (msg : LLMMessage) :
    (∃ e, parseMessage msg = .error e) ↔ messageInvalid msg = true := by
  unfold messageInvalid
  cases h1 : msg.tool_call with
  | some tc => simp [parseMessage_of_tool_call msg tc h1, h1]
  | none =>
    cases h2 : msg.tool_result with
    | some tr => simp [parseMessage_of_tool_result msg tr h1 h2, h1, h2]
    | none =>
      rw [parseMessage_of_plain msg h1 h2]
      simpa [h1, h2] using parsePlain_error_iff msg.role msg.content

theorem parse_messages_forall₂ :
    ∀ (messages : List LLMMessage) (out : List AzureMessage),
      parse_messages messages = .ok out →
      List.Forall₂ (fun m a => parseMessage m = .ok a) messages out := by
  intro messages
  induction messages with
  | nil =>
    intro out h
    simp only [parse_messages] at h
    cases h
    exact List.Forall₂.nil
  | cons msg rest ih =>
    intro out h
    unfold parse_messages at h
    cases hm : parseMessage msg with
    | error e => rw [hm] at h; cases h
    | ok a =>
      rw [hm] at h
      cases hr : parse_messages rest with
      | error e => rw [hr] at h; cases h
      | ok as =>
        rw [hr] at h
        cases h
        exact List.Forall₂.cons hm (ih as hr)

theorem parse_messages_error_iff_any :
    ∀ messages : List LLMMessage,
      (∃ e, parse_messages messages = .error e) ↔ messages.any messageInvalid = true := by
  intro messages
  induction messages with
  | nil => simp [parse_messages]
  | cons msg rest ih =>
    simp only [List.any_cons, Bool.or_eq_true]
    constructor
    · rintro ⟨e, h⟩
      unfold parse_messages at h
      cases hm : parseMessage msg with
      | error e' => exact Or.inl ((parseMessage_error_iff msg).mp ⟨e', hm⟩)
      | ok a =>
        rw [hm] at h
        cases hr : parse_messages rest with
        | error e' => exact Or.inr (ih.mp ⟨e', hr⟩)
        | ok as => rw [hr] at h; cases h
    · rintro (h | h)
      · obtain ⟨e, he⟩ := (parseMessage_error_iff msg).mpr h
        exact ⟨e, by simp [parse_messages, he]⟩
      · obtain ⟨e, he⟩ := ih.mpr h
        cases hm : parseMessage msg with
        | error e' => exact ⟨e', by simp [parse_messages, hm]⟩
        | ok a => exact ⟨e, by simp [parse_messages, hm, he]⟩

theorem retryFrom_congr {E A : Type} (f g : Nat → Except E A) :
    ∀ (fuel i : Nat), (∀ j, i ≤ j → j ≤ i + fuel → f j = g j) →
      retryFrom f i fuel = retryFrom g i fuel := by
  intro fuel
  induction fuel with
  | zero =>
    intro i h
    simpa [retryFrom] using h i le_rfl (by omega)
  | succ fuel ih =>
    intro i h
    have h0 : f i = g i := h i le_rfl (by omega)
    simp only [retryFrom, h0]
    cases g i with
    | ok a => rfl
    | error e => exact ih (i + 1) (fun j hj1 hj2 => h j (by omega) (by omega))

theorem retryFrom_result {E A : Type} (f : Nat → Except E A) :
    ∀ (fuel i : Nat), ∃ k, i ≤ k ∧ k ≤ i + fuel ∧ retryFrom f i fuel = f k ∧
      ∀ j, i ≤ j → j < k → ∃ e, f j = .error e := by
  intro fuel
  induction fuel with
  | zero =>
    intro i
    exact ⟨i, le_rfl, by omega, rfl, fun j h1 h2 => absurd h1 (by omega)⟩
  | succ fuel ih =>
    intro i
    cases hf : f i with
    | ok a =>
      exact ⟨i, le_rfl, by omega, by simp [retryFrom, hf],
        fun j h1 h2 => absurd h1 (by omega)⟩
    | error e =>
      obtain ⟨k, hk1, hk2, hk3, hk4⟩ := ih (i + 1)
      refine ⟨k, by omega, by omega, by simp [retryFrom, hf, hk3], ?_⟩
      intro j h1 h2
      rcases Nat.eq_or_lt_of_le h1 with rfl | hlt
      · exact ⟨e, hf⟩
      · exact hk4 j hlt h2

theorem retryFrom_exhaust {E A : Type} (f : Nat → Except E A) :
    ∀ (fuel i : Nat), (∀ j, i ≤ j → j ≤ i + fuel → ∃ e, f j = .error e) →
      retryFrom f i fuel = f (i + fuel) := by
  intro fuel
  induction fuel with
  | zero => intro i _; simp [retryFrom]
  | succ fuel ih =>
    intro i h
    obtain ⟨e, he⟩ := h i le_rfl (by omega)
    have hrest := ih (i + 1) (fun j h1 h2 => h j (by omega) (by omega))
    have harith : i + 1 + fuel = i + (fuel + 1) := by omega
    simp only [retryFrom, he, hrest, harith]

theorem retry_with_const_error {E A : Type} (f : Nat → Except E A) (e : E)
    (h : ∀ j, f j = .error e) (n : Nat) : retry_with f n = .error e := by
  have hx := retryFrom_exhaust f n 0 (fun j _ _ => ⟨e, h j⟩)
  rw [retry_with, hx, h]

/-! ## Claim theorems -/

/-- **C1.** `chat` and `set_chat_history` raise a validation error iff
some message carrying neither tool payload has a plain role with falsy
content or an unrecognized role (the error naming that role); such an
error is raised by the translation step, before any network use (the
result does not consult `net`), and leaves `message_history` unchanged. -/
theorem chat_validation_error_iff (messages : List LLMMessage) :
    ((∃ e, parse_messages messages = .error e) ↔ messages.any messageInvalid = true)
    ∧ (∀ e, parse_messages messages = .error e →
        (∀ st : AzureClientState, set_chat_history st messages = (.error e, st))
        ∧ (∀ st mp tools net reuse, chat st messages mp tools net reuse = (.error e, st)))
    ∧ (∀ msg : LLMMessage, msg.tool_call = none → msg.tool_result = none →
        msg.role ≠ "system" → msg.role ≠ "user" → msg.role ≠ "assistant" →
        parseMessage msg = .error ("Invalid message role: " ++ msg.role)) := by
  refine ⟨parse_messages_error_iff_any messages,
    fun e he => ⟨fun st => ?_, fun st mp tools net reuse => ?_⟩,
    fun msg h1 h2 h3 h4 h5 => ?_⟩
  · simp [set_chat_history, he]
  · simp [chat, he]
  · rw [parseMessage_of_plain msg h1 h2]
    simp [parsePlain, h3, h4, h5]

/-- Witness for C1 at a concrete unrecognized-role message. -/
theorem chat_validation_error_iff_witness :
    ([({ role := "bogus", content := some "x" } : LLMMessage)].any messageInvalid = true)
    ∧ set_chat_history ⟨"k", "u", none, []⟩ [{ role := "bogus", content := some "x" }]
        = (.error "Invalid message role: bogus", ⟨"k", "u", none, []⟩) := by
  have h := chat_validation_error_iff [{ role := "bogus", content := some "x" }]
  exact ⟨h.1.mp ⟨"Invalid message role: bogus", rfl⟩,
    (h.2.1 "Invalid message role: bogus" rfl).1 ⟨"k", "u", none, []⟩⟩

/-- **C2 counterexample.** For a tool result carrying both a result and
an error, the code separates the result text from the appended error
notice with a newline; the claim's content formula (the result text
with the notice appended directly) yields a different string. -/
theorem parse_tool_result_content_counterexample :
    parseMessage { role := "tool", content := none, tool_call := none,
                   tool_result := some { call_id := "c1", result := some "ok",
                                         error := some "bad" } }
      = .ok (.tool (toolResultContent ⟨"c1", some "ok", some "bad"⟩) "c1")
    ∧ toolResultContent ⟨"c1", some "ok", some "bad"⟩
        = "ok\nTool call failed with error:\nbad"
    ∧ toolResultContentSpec ⟨"c1", some "ok", some "bad"⟩
        = "okTool call failed with error:\nbad"
    ∧ toolResultContent ⟨"c1", some "ok", some "bad"⟩
        ≠ toolResultContentSpec ⟨"c1", some "ok", some "bad"⟩ :=
  ⟨rfl, by decide, by decide, by decide⟩

/-- **C2 (amended).** `parse_messages` translates by payload kind: a
tool-call message becomes one function-role record whose content is the
JSON encoding of `{name, arguments}` and whose name is the tool's name;
a tool-result message becomes one tool-role record whose content is the
result text followed by a newline and then the error notice when a
truthy error is present, the whole string stripped; and every message
maps to exactly one record, so for valid input the output has the same
length and order as the input. -/
theorem parse_messages_translation (messages : List LLMMessage) :
    (∀ (msg : LLMMessage) (tc : ToolCall), msg.tool_call = some tc →
       parseMessage msg = .ok (.function (toolCallContent tc) tc.name))
    ∧ (∀ (msg : LLMMessage) (tr : ToolResult), msg.tool_call = none →
       msg.tool_result = some tr →
       parseMessage msg = .ok (.tool (toolResultContent tr) tr.call_id))
    ∧ (∀ out, parse_messages messages = .ok out →
       List.Forall₂ (fun m a => parseMessage m = .ok a) messages out
       ∧ out.length = messages.length) := by
  refine ⟨parseMessage_of_tool_call, parseMessage_of_tool_result, fun out h => ?_⟩
  have hf := parse_messages_forall₂ messages out h
  exact ⟨hf, hf.length_eq.symm⟩

/-- Witness for C2 on a one-message list. -/
theorem parse_messages_translation_witness :
    parseMessage { role := "u", content := none,
                   tool_call := some { name := "f", call_id := "i",
                                       arguments := .obj [] },
                   tool_result := none }
      = .ok (.function (toolCallContent { name := "f", call_id := "i", arguments := .obj [] }) "f")
    ∧ List.Forall₂ (fun m a => parseMessage m = .ok a)
        [({ role := "user", content := some "hi" } : LLMMessage)] [.user "hi"] := by
  have h := parse_messages_translation [({ role := "user", content := some "hi" } : LLMMessage)]
  exact ⟨h.1 _ _ rfl, (h.2.2 [.user "hi"] rfl).1⟩

/-- **C3.** `set_chat_history` replaces the stored history with exactly
`parse_messages messages` (its signature involves no network oracle);
`chat` with `reuse_history = true` extends the stored history with the
translation before the network call — so a transport failure leaves
exactly the extended history — while `reuse_history = false` replaces
it. -/
theorem history_update_semantics (st : AzureClientState) (messages : List LLMMessage)
    (parsed : List AzureMessage) (h : parse_messages messages = .ok parsed)
    (mp : ModelParameters) (tools : Option (List Tool)) (net : Network) :
    set_chat_history st messages = (.ok (), { st with message_history := parsed })
    ∧ chat st messages mp tools net true =
        chatWithHistory { st with message_history := st.message_history ++ parsed }
          mp tools net
    ∧ chat st messages mp tools net false =
        chatWithHistory { st with message_history := parsed } mp tools net
    ∧ (∀ e, (∀ hist schemas i, net hist schemas i = .error e) →
        chat st messages mp tools net true
          = (.error e, { st with message_history := st.message_history ++ parsed })) := by
  refine ⟨by simp [set_chat_history, h], by simp [chat, h, historyAfterParse],
    by simp [chat, h, historyAfterParse], fun e he => ?_⟩
  have hr := retry_with_const_error
    (net (st.message_history ++ parsed) (toolSchemasOf tools)) e
    (fun j => he _ _ j) mp.max_retries
  simp [chat, h, historyAfterParse, chatWithHistory, hr]

/-- Witness for C3: one user message appended to a one-record history,
against a network that is down. -/
theorem history_update_semantics_witness :
    set_chat_history ⟨"k", "u", none, [.system "s"]⟩ [{ role := "user", content := some "hi" }]
      = (.ok (), ⟨"k", "u", none, [.user "hi"]⟩)
    ∧ chat ⟨"k", "u", none, [.system "s"]⟩ [{ role := "user", content := some "hi" }]
        ⟨"m", "k", some "u", none, 0⟩ none (fun _ _ _ => .error "down") true
      = (.error "down", ⟨"k", "u", none, [.system "s", .user "hi"]⟩) := by
  have h := history_update_semantics ⟨"k", "u", none, [.system "s"]⟩
    [{ role := "user", content := some "hi" }] [.user "hi"] rfl
    ⟨"m", "k", some "u", none, 0⟩ none (fun _ _ _ => .error "down")
  exact ⟨h.1, h.2.2.2 "down" (fun _ _ _ => rfl)⟩

/-- **C5 counterexample.** For the unrecognized model name of the
claim, `AzureClient.supports_tool_calling` returns `true`, not `false`:
its body is `return True` with no allow-list. -/
theorem supports_tool_calling_unrecognized_true :
    supports_tool_calling { model := "no such model", api_key := "k",
                            base_url := some "u", api_version := none,
                            max_retries := 1 } = true := rfl

/-- **C5 (amended).** `supports_tool_calling` returns `true` for every
model configuration; it is a pure function of the config (it takes no
client state, so no state — including the stored message history — can
change by calling it). -/
theorem supports_tool_calling_const_true (mp : ModelParameters) :
    supports_tool_calling mp = true := rfl

/-- **C9.** Construction with a falsy base URL fails immediately with
the configuration error (the constructor involves neither the network
oracle nor the retry wrapper, so the failure is not retried); with a
base URL present it succeeds, stores the connection fields, and
initializes an empty chat history. -/
theorem construct_requires_base_url (mp : ModelParameters) :
    (strFalsy mp.base_url = true →
       AzureClient.construct mp = .error "base_url is required for AzureClient")
    ∧ (strFalsy mp.base_url = false →
       AzureClient.construct mp =
         .ok { api_key := mp.api_key, base_url := mp.base_url.getD "",
               api_version := mp.api_version, message_history := [] })
    ∧ (∀ st, AzureClient.construct mp = .ok st → st.message_history = []) := by
  refine ⟨fun h => ?_, fun h => ?_, fun st h => ?_⟩
  · simp [AzureClient.construct, h]
  · simp [AzureClient.construct, h]
  · unfold AzureClient.construct at h
    split at h
    · cases h
    · cases h; rfl

/-- Witness for C9: a config without a base URL and one with. -/
theorem construct_requires_base_url_witness :
    AzureClient.construct { model := "m", api_key := "k", base_url := none,
                            api_version := none, max_retries := 1 }
      = .error "base_url is required for AzureClient"
    ∧ AzureClient.construct { model := "m", api_key := "k",
                              base_url := some "https://x", api_version := none,
                              max_retries := 1 }
      = .ok { api_key := "k", base_url := "https://x", api_version := none,
              message_history := [] } :=
  ⟨(construct_requires_base_url _).1 rfl, (construct_requires_base_url _).2.1 rfl⟩

/-- **C10.** `parse_messages` discriminates by fixed precedence: a set
`tool_call` always yields the function-role record whatever the other
fields hold; with no `tool_call`, a set `tool_result` always yields the
tool-role record whatever role and content hold; role and content are
examined — and falsy content rejected — only when the message carries
neither tool payload. -/
theorem parse_messages_payload_precedence (msg : LLMMessage) :
    (∀ tc, msg.tool_call = some tc →
       parseMessage msg = .ok (.function (toolCallContent tc) tc.name))
    ∧ (∀ tr, msg.tool_call = none → msg.tool_result = some tr →
       parseMessage msg = .ok (.tool (toolResultContent tr) tr.call_id))
    ∧ (msg.tool_call = none → msg.tool_result = none →
       parseMessage msg = parsePlain msg.role msg.content) :=
  ⟨fun tc h => parseMessage_of_tool_call msg tc h,
   fun tr h1 h2 => parseMessage_of_tool_result msg tr h1 h2,
   fun h1 h2 => parseMessage_of_plain msg h1 h2⟩

/-- Witness for C10: a message with both payloads set, an unrecognized
role, and no content is still translated as a tool-call record. -/
theorem parse_messages_payload_precedence_witness :
    parseMessage { role := "weird", content := none,
                   tool_call := some { name := "f", call_id := "i",
                                       arguments := .obj [] },
                   tool_result := some { call_id := "i", result := some "r",
                                         error := none } }
      = .ok (.function (toolCallContent { name := "f", call_id := "i", arguments := .obj [] }) "f") :=
  (parse_messages_payload_precedence _).1 _ rfl

theorem getLast?_append_singleton {α : Type} (l : List α) (a : α) :
    (l ++ [a]).getLast? = some a := by
  rw [List.getLast?_append_cons]
  rfl

theorem appendAssistantTurn_of_tool_calls (st1 : AzureClientState) (r : LLMResponse)
    (tc : ToolCall) (tcs : List ToolCall) (htc : r.tool_calls = some (tc :: tcs)) :
    appendAssistantTurn st1 r
      = { st1 with message_history := st1.message_history
            ++ [.assistantToolCalls r.content (assistantToolCallParams (tc :: tcs))] } := by
  unfold appendAssistantTurn
  rw [htc]

theorem appendAssistantTurn_of_content (st1 : AzureClientState) (r : LLMResponse)
    (htc : r.tool_calls = none) (hcne : r.content.isEmpty = false) :
    appendAssistantTurn st1 r
      = { st1 with message_history := st1.message_history ++ [.assistant r.content] } := by
  unfold appendAssistantTurn
  rw [htc, hcne]
  rfl

theorem appendAssistantTurn_of_empty (st1 : AzureClientState) (r : LLMResponse)
    (htc : r.tool_calls = none) (hce : r.content.isEmpty = true) :
    appendAssistantTurn st1 r = st1 := by
  unfold appendAssistantTurn
  rw [htc, hce]
  rfl

theorem extractToolCalls_ne_nil (choice : Choice) (tcs : List ToolCall)
    (h : extractToolCalls choice = some tcs) : tcs ≠ [] := by
  unfold extractToolCalls at h
  split at h
  · cases h; simp
  · cases h

theorem chat_ok_inversion (st : AzureClientState) (messages : List LLMMessage)
    (mp : ModelParameters) (tools : Option (List Tool)) (net : Network)
    (reuse : Bool) (r : LLMResponse) (st' : AzureClientState)
    (h : chat st messages mp tools net reuse = (.ok r, st')) :
    ∃ parsed response choice rest,
      parse_messages messages = .ok parsed ∧
      retry_with (net (historyAfterParse st parsed reuse).message_history
          (toolSchemasOf tools)) mp.max_retries = .ok response ∧
      response.choices = choice :: rest ∧
      r = buildLLMResponse response choice ∧
      st' = appendAssistantTurn (historyAfterParse st parsed reuse) r := by
  unfold chat at h
  split at h
  next e heq => simp at h
  next parsed heq =>
    unfold chatWithHistory at h
    split at h
    next e hrw => simp at h
    next response hrw =>
      split at h
      next hc => simp at h
      next choice rest hc =>
        simp only [Prod.mk.injEq, Except.ok.injEq] at h
        obtain ⟨h1, h2⟩ := h
        subst h1
        exact ⟨parsed, response, choice, rest, heq, hrw, hc, rfl, h2.symm⟩

/-- **C4 counterexample.** A successful `chat` call whose provider
response carries neither tool calls nor content appends no assistant
turn: the final history still ends with the caller's user message, so
the history does not end with the assistant's reply for every
successful call. -/
theorem chat_empty_reply_no_append :
    chat stW [userHi] mpW none (fun _ _ _ => .ok respEmpty) true
      = (.ok { content := "", tool_calls := none, finish_reason := "stop",
               model := "gpt", usage := none },
         ⟨"k", "u", none, [.user "hi"]⟩)
    ∧ ([AzureMessage.user "hi"].getLast? = some (.user "hi")) :=
  ⟨rfl, rfl⟩

/-- **C4 (amended).** After a successful `chat` call: when the response
carried tool calls, the history ends with an assistant record carrying
those tool calls; when it carried no tool calls but non-empty content,
the history ends with a plain assistant record; when it carried neither,
nothing is appended and the history is exactly the caller-message
update. -/
theorem chat_assistant_turn_append (st : AzureClientState) (messages : List LLMMessage)
    (mp : ModelParameters) (tools : Option (List Tool)) (net : Network) (reuse : Bool)
    (r : LLMResponse) (st' : AzureClientState)
    (h : chat st messages mp tools net reuse = (.ok r, st')) :
    (∀ tc tcs, r.tool_calls = some (tc :: tcs) →
       st'.message_history.getLast? =
         some (.assistantToolCalls r.content (assistantToolCallParams (tc :: tcs))))
    ∧ (r.tool_calls = none → r.content.isEmpty = false →
       st'.message_history.getLast? = some (.assistant r.content))
    ∧ (r.tool_calls = none → r.content.isEmpty = true →
       ∃ parsed, parse_messages messages = .ok parsed ∧
         st' = historyAfterParse st parsed reuse) := by
  obtain ⟨parsed, response, choice, rest, hp, hrw, hc, hr, hst⟩ :=
    chat_ok_inversion st messages mp tools net reuse r st' h
  subst hst
  refine ⟨fun tc tcs htc => ?_, fun htc hcne => ?_, fun htc hce => ?_⟩
  · rw [appendAssistantTurn_of_tool_calls _ r tc tcs htc]
    exact getLast?_append_singleton _ _
  · rw [appendAssistantTurn_of_content _ r htc hcne]
    exact getLast?_append_singleton _ _
  · exact ⟨parsed, hp, appendAssistantTurn_of_empty _ r htc hce⟩

/-- Witness for C4 (amended) at a concrete run with plain content. -/
theorem chat_assistant_turn_append_witness :
    ((⟨"k", "u", none, [.user "hi", .assistant "hello"]⟩ :
        AzureClientState).message_history.getLast? = some (.assistant "hello")) := by
  have h := chat_assistant_turn_append stW [userHi] mpW none
    (fun _ _ _ => .ok respPlain) true
    { content := "hello", tool_calls := none, finish_reason := "stop",
      model := "gpt", usage := some ⟨3, 0⟩ }
    ⟨"k", "u", none, [.user "hi", .assistant "hello"]⟩ rfl
  exact h.2.1 rfl rfl

/-- **C6.** Round trip of tool-call identifiers: the extracted
`call_id`s are stored unmodified as the `id`s of the assistant
tool-call record appended to history, and a later tool-result message
with one of those `call_id`s is translated into a tool-role record
whose `tool_call_id` is that same `call_id`. -/
theorem tool_call_id_round_trip (st : AzureClientState) (messages : List LLMMessage)
    (mp : ModelParameters) (tools : Option (List Tool)) (net : Network) (reuse : Bool)
    (r : LLMResponse) (st' : AzureClientState)
    (h : chat st messages mp tools net reuse = (.ok r, st'))
    (tcs : List ToolCall) (htc : r.tool_calls = some tcs) :
    ((assistantToolCallParams tcs).map AzureToolCallParam.id = tcs.map ToolCall.call_id)
    ∧ st'.message_history.getLast? =
        some (.assistantToolCalls r.content (assistantToolCallParams tcs))
    ∧ (∀ (msg : LLMMessage) (tr : ToolResult), msg.tool_call = none →
        msg.tool_result = some tr → tr.call_id ∈ tcs.map ToolCall.call_id →
        parseMessage msg = .ok (.tool (toolResultContent tr) tr.call_id)) := by
  obtain ⟨parsed, response, choice, rest, hp, hrw, hc, hr, hst⟩ :=
    chat_ok_inversion st messages mp tools net reuse r st' h
  refine ⟨?_, ?_, fun msg tr h1 h2 _ => parseMessage_of_tool_result msg tr h1 h2⟩
  · simp [assistantToolCallParams]
  · have hne : tcs ≠ [] := by
      apply extractToolCalls_ne_nil choice
      rw [← htc, hr]
      rfl
    cases tcs with
    | nil => exact absurd rfl hne
    | cons tc tcs' =>
      subst hst
      rw [appendAssistantTurn_of_tool_calls _ r tc tcs' htc]
      exact getLast?_append_singleton _ _

/-- Witness for C6 at a concrete run carrying one tool call. -/
theorem tool_call_id_round_trip_witness :
    parseMessage { role := "x", content := none, tool_call := none,
                   tool_result := some { call_id := "call123", result := some "done",
                                         error := none } }
      = .ok (.tool (toolResultContent ⟨"call123", some "done", none⟩) "call123")
    ∧ (assistantToolCallParams tcsW).map AzureToolCallParam.id = ["call123"] := by
  have h := tool_call_id_round_trip stW [userHi] mpW none
    (fun _ _ _ => .ok respTC) true
    { content := "", tool_calls := some tcsW, finish_reason := "tool_calls",
      model := "gpt", usage := none }
    ⟨"k", "u", none, [.user "hi", .assistantToolCalls "" (assistantToolCallParams tcsW)]⟩
    rfl tcsW rfl
  exact ⟨h.2.2 _ _ rfl rfl (by simp [tcsW]), h.1.trans (by decide)⟩

/-- **C7.** On every successful call, `chat` builds the `LLMResponse`
from the first choice of the provider response surfaced by the retry
wrapper: usage is `none` exactly when the provider reported none and
otherwise carries the provider counts with missing counts defaulted to
zero; content defaults to the empty string when the provider returned
no content; finish reason and model string are taken from the response. -/
theorem chat_first_choice_response_fields (st : AzureClientState)
    (messages : List LLMMessage) (mp : ModelParameters) (tools : Option (List Tool))
    (net : Network) (reuse : Bool) (r : LLMResponse) (st' : AzureClientState)
    (h : chat st messages mp tools net reuse = (.ok r, st')) :
    ∃ parsed response choice rest,
      parse_messages messages = .ok parsed ∧
      retry_with (net (historyAfterParse st parsed reuse).message_history
          (toolSchemasOf tools)) mp.max_retries = .ok response ∧
      response.choices = choice :: rest ∧
      r.finish_reason = choice.finish_reason ∧
      r.model = response.model ∧
      ((r.usage = none) ↔ (response.usage = none)) ∧
      (∀ u, response.usage = some u →
         r.usage = some { input_tokens := u.prompt_tokens.getD 0,
                          output_tokens := u.completion_tokens.getD 0 }) ∧
      (choice.message.content = none → r.content = "") ∧
      (∀ c, choice.message.content = some c → r.content = c) := by
  obtain ⟨parsed, response, choice, rest, hp, hrw, hc, hr, hst⟩ :=
    chat_ok_inversion st messages mp tools net reuse r st' h
  subst hr
  refine ⟨parsed, response, choice, rest, hp, hrw, hc, rfl, rfl, ?_, ?_, ?_, ?_⟩
  · simp only [buildLLMResponse]
    cases hu : response.usage <;> simp [hu]
  · intro u hu; simp [buildLLMResponse, hu]
  · intro hcn; simp [buildLLMResponse, hcn]
  · intro c hcs; simp [buildLLMResponse, hcs]

/-- Witness for C7 at a concrete successful run with partial usage. -/
theorem chat_first_choice_response_fields_witness :
    ∃ parsed response choice rest,
      parse_messages [userHi] = .ok parsed ∧
      retry_with ((fun _ _ _ => .ok respPlain : Network)
          (historyAfterParse stW parsed true).message_history
          (toolSchemasOf none)) mpW.max_retries = .ok response ∧
      response.choices = choice :: rest ∧
      ({ content := "hello", tool_calls := none, finish_reason := "stop",
         model := "gpt", usage := some ⟨3, 0⟩ } : LLMResponse).finish_reason
        = choice.finish_reason ∧
      ({ content := "hello", tool_calls := none, finish_reason := "stop",
         model := "gpt", usage := some ⟨3, 0⟩ } : LLMResponse).model = response.model ∧
      ((({ content := "hello", tool_calls := none, finish_reason := "stop",
           model := "gpt", usage := some ⟨3, 0⟩ } : LLMResponse).usage = none)
        ↔ (response.usage = none)) ∧
      (∀ u, response.usage = some u →
         ({ content := "hello", tool_calls := none, finish_reason := "stop",
            model := "gpt", usage := some ⟨3, 0⟩ } : LLMResponse).usage
           = some { input_tokens := u.prompt_tokens.getD 0,
                    output_tokens := u.completion_tokens.getD 0 }) ∧
      (choice.message.content = none →
         ({ content := "hello", tool_calls := none, finish_reason := "stop",
            model := "gpt", usage := some ⟨3, 0⟩ } : LLMResponse).content = "") ∧
      (∀ c, choice.message.content = some c →
         ({ content := "hello", tool_calls := none, finish_reason := "stop",
            model := "gpt", usage := some ⟨3, 0⟩ } : LLMResponse).content = c) :=
  chat_first_choice_response_fields stW [userHi] mpW none
    (fun _ _ _ => .ok respPlain) true
    { content := "hello", tool_calls := none, finish_reason := "stop",
      model := "gpt", usage := some ⟨3, 0⟩ }
    ⟨"k", "u", none, [.user "hi", .assistant "hello"]⟩ rfl

/-- **C8.** The network operation runs through the retry wrapper with
the configured maximum retry count: the result is some attempt of index
at most `max_retries` with every earlier attempt failing; when all
attempts up to the bound fail, the wrapper surfaces the last failure;
`chat` never consults the network beyond attempt `max_retries`; and a
network that always fails makes `chat` surface that failure. -/
theorem chat_retry_bounded_surfaces_last
    (f : Nat → Except String ChatCompletion) (n : Nat) :
    (∃ k, k ≤ n ∧ retry_with f n = f k ∧ ∀ j, j < k → ∃ e, f j = .error e)
    ∧ ((∀ j, j ≤ n → ∃ e, f j = .error e) → retry_with f n = f n)
    ∧ (∀ st messages mp tools (net net' : Network) reuse,
        (∀ hist schemas i, i ≤ mp.max_retries → net hist schemas i = net' hist schemas i) →
        chat st messages mp tools net reuse = chat st messages mp tools net' reuse)
    ∧ (∀ st messages mp tools (net : Network) reuse e parsed,
        parse_messages messages = .ok parsed →
        (∀ hist schemas i, net hist schemas i = .error e) →
        chat st messages mp tools net reuse
          = (.error e, historyAfterParse st parsed reuse)) := by
  refine ⟨?_, ?_, ?_, ?_⟩
  · obtain ⟨k, hk0, hk1, hk2, hk3⟩ := retryFrom_result f n 0
    exact ⟨k, by omega, hk2, fun j hj => hk3 j (by omega) hj⟩
  · intro hall
    have hx := retryFrom_exhaust f n 0 (fun j _ hj => hall j (by omega))
    rw [retry_with, hx, Nat.zero_add]
  · intro st messages mp tools net net' reuse hagree
    have hcong : ∀ hist schemas,
        retry_with (net hist schemas) mp.max_retries
          = retry_with (net' hist schemas) mp.max_retries :=
      fun hist schemas =>
        retryFrom_congr _ _ mp.max_retries 0 (fun j _ hj => hagree _ _ j (by omega))
    cases hp : parse_messages messages with
    | error e => simp [chat, hp]
    | ok parsed =>
      simp only [chat, hp]
      unfold chatWithHistory
      rw [hcong]
  · intro st messages mp tools net reuse e parsed hp hfail
    have hr := retry_with_const_error
      (net (historyAfterParse st parsed reuse).message_history (toolSchemasOf tools))
      e (fun j => hfail _ _ j) mp.max_retries
    simp [chat, hp, chatWithHistory, hr]

/-- Witness for C8: a network failing at every attempt exhausts the
two allowed retries and surfaces the last failure, and a concrete
`chat` call against a dead network reports the transport error. -/
theorem chat_retry_bounded_surfaces_last_witness :
    retry_with (fun i => (.error (toString i) : Except String ChatCompletion)) 2
      = .error "2"
    ∧ chat stW [userHi] mpW none (fun _ _ _ => .error "down") true
        = (.error "down", historyAfterParse stW [.user "hi"] true) := by
  have h := chat_retry_bounded_surfaces_last
    (fun i => (.error (toString i) : Except String ChatCompletion)) 2
  refine ⟨(h.2.1 (fun j _ => ⟨toString j, rfl⟩)).trans rfl, ?_⟩
  exact h.2.2.2 stW [userHi] mpW none (fun _ _ _ => .error "down") true "down"
    [.user "hi"] rfl (fun _ _ _ => rfl)

end AzureSpec
